import Mathlib

/-
  Verification development for the LoveACE release-management CLI.

  The data model is embedded from src/utils/manifest.py, the update
  operations from src/utils/cli.py, and the storage read behaviour from
  src/utils/s3_client.py.  Machine integers are modelled as Nat with
  explicit reduction modulo 2 to the 32, matching the 32-bit words of the
  MD5 computation used by hashlib.md5.
-/

namespace LoveACE

/-! ## MD5 (models Python hashlib.md5 hexdigest over UTF-8 bytes) -/

/-- Per-round left-rotation amounts of MD5 (RFC 1321). -/
def md5Shift : List Nat :=
  [7, 12, 17, 22, 7, 12, 17, 22, 7, 12, 17, 22, 7, 12, 17, 22,
   5, 9, 14, 20, 5, 9, 14, 20, 5, 9, 14, 20, 5, 9, 14, 20,
   4, 11, 16, 23, 4, 11, 16, 23, 4, 11, 16, 23, 4, 11, 16, 23,
   6, 10, 15, 21, 6, 10, 15, 21, 6, 10, 15, 21, 6, 10, 15, 21]

/-- Sine-derived additive constants of MD5 (RFC 1321). -/
def md5Sine : List Nat :=
  [0xd76aa478, 0xe8c7b756, 0x242070db, 0xc1bdceee, 0xf57c0faf, 0x4787c62a, 0xa8304613, 0xfd469501,
   0x698098d8, 0x8b44f7af, 0xffff5bb1, 0x895cd7be, 0x6b901122, 0xfd987193, 0xa679438e, 0x49b40821,
   0xf61e2562, 0xc040b340, 0x265e5a51, 0xe9b6c7aa, 0xd62f105d, 0x02441453, 0xd8a1e681, 0xe7d3fbc8,
   0x21e1cde6, 0xc33707d6, 0xf4d50d87, 0x455a14ed, 0xa9e3e905, 0xfcefa3f8, 0x676f02d9, 0x8d2a4c8a,
   0xfffa3942, 0x8771f681, 0x6d9d6122, 0xfde5380c, 0xa4beea44, 0x4bdecfa9, 0xf6bb4b60, 0xbebfbc70,
   0x289b7ec6, 0xeaa127fa, 0xd4ef3085, 0x04881d05, 0xd9d4d039, 0xe6db99e5, 0x1fa27cf8, 0xc4ac5665,
   0xf4292244, 0x432aff97, 0xab9423a7, 0xfc93a039, 0x655b59c3, 0x8f0ccc92, 0xffeff47d, 0x85845dd1,
   0x6fa87e4f, 0xfe2ce6e0, 0xa3014314, 0x4e0811a1, 0xf7537e82, 0xbd3af235, 0x2ad7d2bb, 0xeb86d391]

/-- Left rotation of a 32-bit word represented as a Nat below 2 to the 32. -/
def leftrot32 (x n : Nat) : Nat :=
  ((x <<< n) ||| (x >>> (32 - n))) % 2 ^ 32

/-- Bitwise complement within 32 bits. -/
def not32 (x : Nat) : Nat := x ^^^ 0xffffffff

/-- The MD5 round mixing function, selected by round index. -/
def md5Mix (i b c d : Nat) : Nat :=
  if i < 16 then (b &&& c) ||| (not32 b &&& d)
  else if i < 32 then (d &&& b) ||| (not32 d &&& c)
  else if i < 48 then b ^^^ c ^^^ d
  else c ^^^ (b ||| not32 d)

/-- The MD5 message-word index for round i. -/
def md5Idx (i : Nat) : Nat :=
  if i < 16 then i
  else if i < 32 then (5 * i + 1) % 16
  else if i < 48 then (3 * i + 5) % 16
  else (7 * i) % 16

/-- One of the 64 MD5 rounds acting on the state (a, b, c, d). -/
def md5Round (M : Nat → Nat) (st : Nat × Nat × Nat × Nat) (i : Nat) :
    Nat × Nat × Nat × Nat :=
  let a := st.1
  let b := st.2.1
  let c := st.2.2.1
  let d := st.2.2.2
  let f := (md5Mix i b c d + a + md5Sine.getD i 0 + M (md5Idx i)) % 2 ^ 32
  (d, (b + leftrot32 f (md5Shift.getD i 0)) % 2 ^ 32, b, c)

/-- Little-endian byte decomposition of a Nat, c bytes long. -/
def leBytes (n c : Nat) : List Nat :=
  (List.range c).map (fun i => (n >>> (8 * i)) % 256)

/-- Process one 64-byte chunk, updating the running MD5 state. -/
def md5Chunk (st : Nat × Nat × Nat × Nat) (chunk : List Nat) :
    Nat × Nat × Nat × Nat :=
  let M := fun g =>
    chunk.getD (4 * g) 0 + 256 * chunk.getD (4 * g + 1) 0 +
      65536 * chunk.getD (4 * g + 2) 0 + 16777216 * chunk.getD (4 * g + 3) 0
  let r := (List.range 64).foldl (md5Round M) st
  ((st.1 + r.1) % 2 ^ 32, (st.2.1 + r.2.1) % 2 ^ 32,
   (st.2.2.1 + r.2.2.1) % 2 ^ 32, (st.2.2.2 + r.2.2.2) % 2 ^ 32)

/-- MD5 padding: append 0x80, zero bytes to 56 mod 64, then the bit length. -/
def md5Pad (msg : List Nat) : List Nat :=
  let zeros := (56 + 64 - (msg.length + 1) % 64) % 64
  msg ++ [0x80] ++ List.replicate zeros 0 ++ leBytes (msg.length * 8 % 2 ^ 64) 8

/-- The MD5 digest of a byte sequence, as the 16 output bytes. -/
def md5Bytes (msg : List Nat) : List Nat :=
  let padded := md5Pad msg
  let chunks := (List.range (padded.length / 64)).map
    (fun i => (padded.drop (64 * i)).take 64)
  let st := chunks.foldl md5Chunk (0x67452301, 0xefcdab89, 0x98badcfe, 0x10325476)
  leBytes st.1 4 ++ leBytes st.2.1 4 ++ leBytes st.2.2.1 4 ++ leBytes st.2.2.2 4

/-- Lower-case hexadecimal digit character for a value below 16. -/
def hexChar (n : Nat) : Char :=
  if n < 10 then Char.ofNat (48 + n) else Char.ofNat (87 + n)

/-- Two-character lower-case hexadecimal rendering of one byte. -/
def byteHex (b : Nat) : String :=
  String.mk [hexChar (b / 16), hexChar (b % 16)]

/-- Hex digest of a string, as Python hashlib.md5(s.encode).hexdigest(). -/
def md5Hex (s : String) : String :=
  String.join ((md5Bytes (s.toUTF8.toList.map (fun b => b.toNat))).map byteHex)

/-! ## Data model (src/utils/manifest.py) -/

/-- Announcement model: title, content, confirm_require. -/
structure Announcement where
  title : String
  content : String
  confirm_require : Bool := false
  deriving DecidableEq, Repr

/-- Computed digest field of an Announcement: MD5 of title concatenated
with content, as in Announcement.md5 of manifest.py. -/
def Announcement.md5 (a : Announcement) : String :=
  md5Hex (a.title ++ a.content)

/-- One changelog line: version and its change text. -/
structure ChangelogEntry where
  version : String
  changes : String
  deriving DecidableEq, Repr

/-- Per-platform release record: version, force flag, url, artifact MD5. -/
structure PlatformRelease where
  version : String
  force_ota : Bool := false
  url : String
  md5 : String
  deriving DecidableEq, Repr

/-- OTA model: shared popup content, shared changelog, and one optional
release record per platform, as five optional fields. -/
structure OTA where
  content : String := ""
  changelog : List ChangelogEntry := []
  android : Option PlatformRelease := none
  ios : Option PlatformRelease := none
  windows : Option PlatformRelease := none
  macos : Option PlatformRelease := none
  linux : Option PlatformRelease := none
  deriving DecidableEq, Repr

/-- Root manifest document: optional announcement and optional OTA. -/
structure LoveACEManifest where
  announcement : Option Announcement := none
  ota : Option OTA := none
  deriving DecidableEq, Repr

/-- The fixed platform list PLATFORMS of cli.py. -/
def PLATFORMS : List String := ["android", "ios", "windows", "macos", "linux"]

/-- Dynamic attribute read by platform name, as getattr(ota, p, None). -/
def OTA.getPlatform (o : OTA) (p : String) : Option PlatformRelease :=
  if p = "android" then o.android
  else if p = "ios" then o.ios
  else if p = "windows" then o.windows
  else if p = "macos" then o.macos
  else if p = "linux" then o.linux
  else none

/-- Dynamic attribute write by platform name, as setattr(ota, p, r). -/
def OTA.setPlatform (o : OTA) (p : String) (r : Option PlatformRelease) : OTA :=
  if p = "android" then { o with android := r }
  else if p = "ios" then { o with ios := r }
  else if p = "windows" then { o with windows := r }
  else if p = "macos" then { o with macos := r }
  else if p = "linux" then { o with linux := r }
  else o

/-- Platform record of a manifest, as the status command reads it:
getattr(manifest.ota, p, None) when an OTA exists, absent otherwise. -/
def LoveACEManifest.platformRecord (m : LoveACEManifest) (p : String) :
    Option PlatformRelease :=
  match m.ota with
  | some o => o.getPlatform p
  | none => none

/-! ## Pure update operations (src/utils/cli.py) -/

/-- The announce command body on the in-memory manifest (cli.py lines
62-67): replaces the announcement wholesale. -/
def setAnnouncement (m : LoveACEManifest) (title content : String)
    (confirm : Bool) : LoveACEManifest :=
  { m with announcement := some ⟨title, content, confirm⟩ }

/-- The clear_announce command body on the in-memory manifest (cli.py
line 86): sets the announcement to absent. -/
def clearAnnouncement (m : LoveACEManifest) : LoveACEManifest :=
  { m with announcement := none }

/-- Changelog construction of the release command (cli.py lines 126-134):
start with the new entry when changelogText is non-empty, then loop over
the prior entries appending those of a different version while fewer than
10 entries were collected. -/
def buildChangelogs (ota : Option OTA) (version changelogText : String) :
    List ChangelogEntry :=
  let init : List ChangelogEntry :=
    if changelogText ≠ "" then [⟨version, changelogText⟩] else []
  match ota with
  | some o =>
    if o.changelog ≠ [] then
      o.changelog.foldl
        (fun acc e =>
          if e.version ≠ version ∧ acc.length < 10 then acc ++ [e] else acc)
        init
    else init
  | none => init

/-- The pure manifest update of the release command (cli.py lines
126-159), applied after platform and file validation succeeded: rebuild
the changelog, update or create the OTA (replacing shared content only
when non-empty), and set the platform record wholesale. -/
def applyRelease (m : LoveACEManifest) (platform version : String)
    (force : Bool) (url fileMd5 content changelogText : String) :
    LoveACEManifest :=
  let changelogs := buildChangelogs m.ota version changelogText
  let ota : OTA :=
    match m.ota with
    | some o =>
      { o with
        changelog := changelogs,
        content := if content ≠ "" then content else o.content }
    | none => { content := content, changelog := changelogs }
  let pr : PlatformRelease := ⟨version, force, url, fileMd5⟩
  { m with ota := some (ota.setPlatform platform (some pr)) }

/-- Error outcomes of the CLI commands (typer.Exit paths). -/
inductive CliError where
  | invalidPlatform
  | fileNotFound
  | noOtaConfigured
  | platformNotReleased
  deriving DecidableEq, Repr

/-- The set_force command (cli.py lines 238-258): validate the platform,
require an OTA, require a record for the platform, then update only the
force_ota flag of that record.  An ok result is the manifest written
back; an error result means the command exited before any write. -/
def setForce (m : LoveACEManifest) (platform : String) (force : Bool) :
    Except CliError LoveACEManifest :=
  if platform ∉ PLATFORMS then .error .invalidPlatform
  else
    match m.ota with
    | none => .error .noOtaConfigured
    | some o =>
      match o.getPlatform platform with
      | none => .error .platformNotReleased
      | some r =>
        .ok { m with
              ota := some (o.setPlatform platform
                (some { r with force_ota := force })) }

/-- One release invocation, as the arguments the release command receives
after orchestration (the uploaded URL and the file MD5 included). -/
structure ReleaseCall where
  platform : String
  version : String
  force : Bool
  url : String
  fileMd5 : String
  content : String
  changelogText : String
  deriving DecidableEq, Repr

/-- Folding a sequence of release calls over a manifest. -/
def runReleases (m : LoveACEManifest) (calls : List ReleaseCall) :
    LoveACEManifest :=
  calls.foldl
    (fun acc c =>
      applyRelease acc c.platform c.version c.force c.url c.fileMd5
        c.content c.changelogText)
    m

/-- The changelog part of the manifest invariant: when an OTA exists, its
changelog holds at most 10 entries with pairwise distinct versions. -/
def changelogInv (m : LoveACEManifest) : Prop :=
  match m.ota with
  | none => True
  | some o =>
    o.changelog.length ≤ 10 ∧
      (o.changelog.map (fun e => e.version)).Nodup

/-! ## JSON document model (the persisted manifest shape) -/

/-- JSON values, the shape of the persisted manifest document. -/
inductive Json where
  | null : Json
  | bool (b : Bool) : Json
  | num (n : Int) : Json
  | str (s : String) : Json
  | arr (elems : List Json) : Json
  | obj (fields : List (String × Json)) : Json

/-- First binding of a key in a JSON object field list. -/
def Json.lookupKey : List (String × Json) → String → Option Json
  | [], _ => none
  | (k, v) :: rest, key => if k = key then some v else Json.lookupKey rest key

/-- Key access on a JSON value; absent on non-objects. -/
def Json.getKey : Json → String → Option Json
  | .obj fields, key => Json.lookupKey fields key
  | _, _ => none

/-- String extraction, as a strict string field validation. -/
def Json.asStr : Json → Option String
  | .str s => some s
  | _ => none

/-- Boolean extraction, as a strict boolean field validation. -/
def Json.asBool : Json → Option Bool
  | .bool b => some b
  | _ => none

/-- Whether a JSON value is the null literal. -/
def Json.isNull : Json → Bool
  | .null => true
  | _ => false

/-- Python truthiness of a decoded JSON value, used by the check
if data in load_manifest. -/
def Json.truthy : Json → Bool
  | .null => false
  | .bool b => b
  | .num n => n != 0
  | .str s => s != ""
  | .arr elems => !elems.isEmpty
  | .obj fields => !fields.isEmpty

/-! ## Serialization (model_dump_json with exclude_none) -/

/-- Serialized changelog entry. -/
def ChangelogEntry.toJson (e : ChangelogEntry) : Json :=
  .obj [("version", .str e.version), ("changes", .str e.changes)]

/-- Serialized platform record. -/
def PlatformRelease.toJson (r : PlatformRelease) : Json :=
  .obj [("version", .str r.version), ("force_ota", .bool r.force_ota),
        ("url", .str r.url), ("md5", .str r.md5)]

/-- Serialized announcement; the computed md5 field is emitted too. -/
def Announcement.toJson (a : Announcement) : Json :=
  .obj [("title", .str a.title), ("content", .str a.content),
        ("confirm_require", .bool a.confirm_require), ("md5", .str a.md5)]

/-- Optional platform field of the serialized OTA: omitted when absent,
as exclude_none omits None fields. -/
def optPlatField (name : String) (r : Option PlatformRelease) :
    List (String × Json) :=
  match r with
  | some x => [(name, x.toJson)]
  | none => []

/-- Serialized OTA record, platform fields omitted when absent. -/
def OTA.toJson (o : OTA) : Json :=
  .obj ([("content", .str o.content),
         ("changelog", .arr (o.changelog.map ChangelogEntry.toJson))]
    ++ optPlatField "android" o.android ++ optPlatField "ios" o.ios
    ++ optPlatField "windows" o.windows ++ optPlatField "macos" o.macos
    ++ optPlatField "linux" o.linux)

/-- Serialized manifest document, optional fields omitted when absent,
as manifest.model_dump_json(exclude_none=True) in save_manifest. -/
def LoveACEManifest.toJson (m : LoveACEManifest) : Json :=
  .obj
    ((match m.announcement with
      | some a => [("announcement", a.toJson)]
      | none => []) ++
     (match m.ota with
      | some o => [("ota", o.toJson)]
      | none => []))

/-! ## Validation (model_validate on a decoded JSON document) -/

/-- Validation of a changelog entry: version and changes required. -/
def ChangelogEntry.fromJson (j : Json) : Option ChangelogEntry := do
  let v ← (j.getKey "version").bind Json.asStr
  let c ← (j.getKey "changes").bind Json.asStr
  some ⟨v, c⟩

/-- Validation of a platform record: version, url and md5 required;
force_ota defaults to false when absent. -/
def PlatformRelease.fromJson (j : Json) : Option PlatformRelease := do
  let v ← (j.getKey "version").bind Json.asStr
  let f ← match j.getKey "force_ota" with
    | none => some false
    | some x => x.asBool
  let u ← (j.getKey "url").bind Json.asStr
  let m ← (j.getKey "md5").bind Json.asStr
  some ⟨v, f, u, m⟩

/-- Validation of an announcement: title and content required,
confirm_require defaults to false; unknown keys such as the emitted md5
are ignored. -/
def Announcement.fromJson (j : Json) : Option Announcement := do
  let t ← (j.getKey "title").bind Json.asStr
  let c ← (j.getKey "content").bind Json.asStr
  let r ← match j.getKey "confirm_require" with
    | none => some false
    | some x => x.asBool
  some ⟨t, c, r⟩

/-- Validation of a changelog field, entry by entry. -/
def parseChangelog : List Json → Option (List ChangelogEntry)
  | [] => some []
  | j :: rest => do
    let e ← ChangelogEntry.fromJson j
    let es ← parseChangelog rest
    some (e :: es)

/-- Validation of an optional field: absent or null means absent, any
other value must validate. -/
def optField {α : Type} (j : Json) (key : String) (p : Json → Option α) :
    Option (Option α) :=
  match j.getKey key with
  | none => some none
  | some x => if x.isNull then some none else (p x).map some

/-- Validation of an OTA record: content defaults to the empty string,
changelog defaults to empty and is capped at 10 entries by its
max_length constraint, platform fields are optional. -/
def OTA.fromJson (j : Json) : Option OTA :=
  match j with
  | .obj _ => do
    let content ← match j.getKey "content" with
      | none => some ""
      | some x => x.asStr
    let changelog ← match j.getKey "changelog" with
      | none => some ([] : List ChangelogEntry)
      | some (.arr elems) => parseChangelog elems
      | some _ => none
    if changelog.length > 10 then none
    else do
      let android ← optField j "android" PlatformRelease.fromJson
      let ios ← optField j "ios" PlatformRelease.fromJson
      let windows ← optField j "windows" PlatformRelease.fromJson
      let macos ← optField j "macos" PlatformRelease.fromJson
      let linux ← optField j "linux" PlatformRelease.fromJson
      some ⟨content, changelog, android, ios, windows, macos, linux⟩
  | _ => none

/-- Validation of the root manifest document: both fields optional. -/
def LoveACEManifest.fromJson (j : Json) : Option LoveACEManifest :=
  match j with
  | .obj _ => do
    let ann ← optField j "announcement" Announcement.fromJson
    let ota ← optField j "ota" OTA.fromJson
    some ⟨ann, ota⟩
  | _ => none

/-! ## Storage read behaviour (s3_client.py, cli.py) -/

/-- Outcome of reading the manifest key from storage: the read raised,
the bytes were not well-formed JSON, or they decoded to a JSON value. -/
inductive ReadResult where
  | readFailed
  | notJson
  | json (j : Json)

/-- S3Client.get_json (s3_client.py lines 54-60): read and decode inside
one try block, any exception yields None. -/
def get_json (r : ReadResult) : Option Json :=
  match r with
  | .readFailed => none
  | .notJson => none
  | .json j => some j

/-- load_manifest (cli.py lines 38-43): a truthy decoded document is
validated into a manifest (a validation failure raises, modelled as
none); a missing or falsy document yields the empty manifest. -/
def load_manifest (r : ReadResult) : Option LoveACEManifest :=
  match get_json r with
  | some j => if j.truthy then LoveACEManifest.fromJson j else some ⟨none, none⟩
  | none => some ⟨none, none⟩

/-! ## Release command step sequence (cli.py lines 105-160) -/

/-- The observable I/O steps of the release command. -/
inductive ReleaseStep where
  | checksumFile
  | uploadArtifact
  | readManifest
  | writeManifest
  deriving DecidableEq, Repr

/-- Whether a step touches remote storage; hashing reads the local
file only. -/
def ReleaseStep.isRemote : ReleaseStep → Bool
  | .checksumFile => false
  | _ => true

/-- Validation phase of the release command (cli.py lines 105-111):
unknown platform, then missing file, each exits before any I/O step. -/
def releaseValidate (platform : String) (fileExists : Bool) :
    Option CliError :=
  if platform ∉ PLATFORMS then some .invalidPlatform
  else if !fileExists then some .fileNotFound
  else none

/-- The I/O step sequence of the release command (cli.py lines 105-160):
validation failures exit before any step; otherwise the command reads
the manifest (line 114), hashes the file (line 117), uploads the
artifact (lines 121-123) and writes the manifest (line 160). -/
def releaseSteps (platform : String) (fileExists : Bool) :
    List ReleaseStep :=
  if platform ∉ PLATFORMS then []
  else if !fileExists then []
  else [.readManifest, .checksumFile, .uploadArtifact, .writeManifest]

/-! ## Helper lemmas -/

lemma setPlatform_changelog (o : OTA) (p : String) (r : Option PlatformRelease) :
    (o.setPlatform p r).changelog = o.changelog := by
  unfold OTA.setPlatform
  split_ifs <;> rfl

lemma setPlatform_content (o : OTA) (p : String) (r : Option PlatformRelease) :
    (o.setPlatform p r).content = o.content := by
  unfold OTA.setPlatform
  split_ifs <;> rfl

lemma getPlatform_setPlatform_self (o : OTA) (p : String) (hp : p ∈ PLATFORMS)
    (r : Option PlatformRelease) :
    (o.setPlatform p r).getPlatform p = r := by
  simp only [PLATFORMS, List.mem_cons, List.mem_singleton, List.not_mem_nil,
    or_false] at hp
  rcases hp with h | h | h | h | h <;> subst h <;> rfl

lemma getPlatform_setPlatform_ne (o : OTA) (p q : String) (hp : p ∈ PLATFORMS)
    (hq : q ∈ PLATFORMS) (hne : q ≠ p) (r : Option PlatformRelease) :
    (o.setPlatform p r).getPlatform q = o.getPlatform q := by
  simp only [PLATFORMS, List.mem_cons, List.mem_singleton, List.not_mem_nil,
    or_false] at hp hq
  rcases hp with h | h | h | h | h <;> subst h <;>
    rcases hq with h2 | h2 | h2 | h2 | h2 <;> subst h2 <;>
      first
      | rfl
      | exact absurd rfl hne

lemma getPlatform_new (c : String) (l : List ChangelogEntry) (q : String) :
    OTA.getPlatform ⟨c, l, none, none, none, none, none⟩ q = none := by
  unfold OTA.getPlatform
  split_ifs <;> rfl

lemma getPlatform_withMeta (o : OTA) (l : List ChangelogEntry) (c : String)
    (q : String) :
    OTA.getPlatform { o with changelog := l, content := c } q =
      o.getPlatform q := by
  unfold OTA.getPlatform
  split_ifs <;> rfl

/-- The prior changelog the release command iterates over. -/
def oldChangelog : Option OTA → List ChangelogEntry
  | some o => o.changelog
  | none => []

lemma capFold_fix (v : String) (l acc : List ChangelogEntry)
    (h : ¬ acc.length < 10) :
    l.foldl
      (fun acc e =>
        if e.version ≠ v ∧ acc.length < 10 then acc ++ [e] else acc) acc
      = acc := by
  induction l generalizing acc with
  | nil => rfl
  | cons e rest ih =>
    rw [List.foldl_cons, if_neg (fun hc => h hc.2)]
    exact ih acc h

lemma capFold_eq (v : String) (l acc : List ChangelogEntry)
    (h : acc.length ≤ 10) :
    l.foldl
      (fun acc e =>
        if e.version ≠ v ∧ acc.length < 10 then acc ++ [e] else acc) acc
      = acc ++ (l.filter (fun e => e.version != v)).take (10 - acc.length) := by
  induction l generalizing acc with
  | nil => simp
  | cons e rest ih =>
    rw [List.foldl_cons]
    by_cases hv : e.version = v
    · rw [if_neg (fun hc => hc.1 hv), ih acc h, List.filter_cons,
        if_neg (by simp [hv])]
    · by_cases hlen : acc.length < 10
      · rw [if_pos ⟨hv, hlen⟩, ih (acc ++ [e]) (by simp; omega)]
        obtain ⟨k, hk⟩ : ∃ k, 10 - acc.length = k + 1 := ⟨9 - acc.length, by omega⟩
        have hk2 : 10 - (acc ++ [e]).length = k := by simp; omega
        rw [List.filter_cons, if_pos (by simp [hv]), hk2, hk,
          List.take_succ_cons, List.append_assoc, List.singleton_append]
      · rw [if_neg (fun hc => hlen hc.2), capFold_fix v rest acc hlen]
        have : 10 - acc.length = 0 := by omega
        simp [this]

lemma buildChangelogs_eq (ota : Option OTA) (v t : String) :
    buildChangelogs ota v t =
      (if t ≠ "" then [(⟨v, t⟩ : ChangelogEntry)] else []) ++
        ((oldChangelog ota).filter (fun e => e.version != v)).take
          (10 - (if t ≠ "" then [(⟨v, t⟩ : ChangelogEntry)] else []).length) := by
  have hinit : (if t ≠ "" then [(⟨v, t⟩ : ChangelogEntry)] else []).length ≤ 10 := by
    split <;> simp
  cases ota with
  | none => simp [buildChangelogs, oldChangelog]
  | some o =>
    by_cases hc : o.changelog = []
    · simp [buildChangelogs, oldChangelog, hc]
    · simp only [buildChangelogs, oldChangelog]
      rw [if_pos hc, capFold_eq v o.changelog _ hinit]

lemma buildChangelogs_length (ota : Option OTA) (v t : String) :
    (buildChangelogs ota v t).length ≤ 10 := by
  rw [buildChangelogs_eq, List.length_append]
  set init := if t ≠ "" then [(⟨v, t⟩ : ChangelogEntry)] else [] with hinitdef
  have h1 : (List.take (10 - init.length)
      ((oldChangelog ota).filter (fun e => e.version != v))).length
        ≤ 10 - init.length := by
    rw [List.length_take]
    exact Nat.min_le_left _ _
  have h2 : init.length ≤ 10 := by
    rw [hinitdef]
    split <;> simp
  omega

lemma buildChangelogs_nodup (ota : Option OTA) (v t : String)
    (h : ((oldChangelog ota).map (fun e => e.version)).Nodup) :
    ((buildChangelogs ota v t).map (fun e => e.version)).Nodup := by
  rw [buildChangelogs_eq, List.map_append]
  set init := if t ≠ "" then [(⟨v, t⟩ : ChangelogEntry)] else [] with hinitdef
  set taken := ((oldChangelog ota).filter (fun e => e.version != v)).take
    (10 - init.length) with htakendef
  have hsub : List.Sublist taken (oldChangelog ota) := by
    rw [htakendef]
    exact (List.take_sublist _ _).trans (List.filter_sublist _)
  have htaken : (taken.map (fun e => e.version)).Nodup :=
    h.sublist (hsub.map _)
  have hne : ∀ e ∈ taken, e.version ≠ v := by
    intro e he
    rw [htakendef] at he
    have h2 := List.mem_of_mem_take he
    rw [List.mem_filter] at h2
    simpa using h2.2
  refine List.Nodup.append ?_ htaken ?_
  · rw [hinitdef]
    split <;> simp
  · intro s hs1 hs2
    rw [hinitdef] at hs1
    split at hs1
    · rw [List.mem_map] at hs1 hs2
      obtain ⟨e1, he1, hv1⟩ := hs1
      obtain ⟨e2, he2, hv2⟩ := hs2
      simp only [List.mem_singleton] at he1
      subst he1
      exact hne e2 he2 (hv2.trans hv1.symm)
    · simp at hs1

lemma buildChangelogs_head (ota : Option OTA) (v t : String) (h : t ≠ "") :
    (buildChangelogs ota v t).head? = some ⟨v, t⟩ := by
  rw [buildChangelogs_eq, if_pos h, List.singleton_append]
  rfl

lemma applyRelease_ota_changelog (m : LoveACEManifest) (p v : String)
    (force : Bool) (u md c t : String) :
    ∃ o, (applyRelease m p v force u md c t).ota = some o ∧
      o.changelog = buildChangelogs m.ota v t := by
  refine ⟨_, rfl, ?_⟩
  rw [setPlatform_changelog]
  cases m.ota <;> rfl

lemma changelogInv_some (m : LoveACEManifest) (o : OTA) (h : m.ota = some o)
    (h1 : o.changelog.length ≤ 10)
    (h2 : (o.changelog.map (fun e => e.version)).Nodup) :
    changelogInv m := by
  unfold changelogInv
  rw [h]
  exact ⟨h1, h2⟩

lemma changelogInv_elim (m : LoveACEManifest) (o : OTA) (h : m.ota = some o)
    (hm : changelogInv m) :
    o.changelog.length ≤ 10 ∧ (o.changelog.map (fun e => e.version)).Nodup := by
  unfold changelogInv at hm
  rw [h] at hm
  exact hm

lemma applyRelease_inv (m : LoveACEManifest) (p v : String) (force : Bool)
    (u md c t : String) (hm : changelogInv m) :
    changelogInv (applyRelease m p v force u md c t) := by
  have hnodup : ((oldChangelog m.ota).map (fun e => e.version)).Nodup := by
    unfold oldChangelog
    cases hmo : m.ota with
    | none => simp
    | some o => exact (changelogInv_elim m o hmo hm).2
  obtain ⟨o, ho, hc⟩ := applyRelease_ota_changelog m p v force u md c t
  refine changelogInv_some _ o ho ?_ ?_
  · rw [hc]
    exact buildChangelogs_length _ _ _
  · rw [hc]
    exact buildChangelogs_nodup _ _ _ hnodup

lemma entry_roundtrip (e : ChangelogEntry) :
    ChangelogEntry.fromJson e.toJson = some e := by
  cases e
  rfl

lemma platRel_roundtrip (r : PlatformRelease) :
    PlatformRelease.fromJson r.toJson = some r := by
  cases r
  rfl

lemma announcement_roundtrip (a : Announcement) :
    Announcement.fromJson a.toJson = some a := by
  cases a
  rfl

lemma parseChangelog_roundtrip (l : List ChangelogEntry) :
    parseChangelog (l.map ChangelogEntry.toJson) = some l := by
  induction l with
  | nil => rfl
  | cons e rest ih => simp [parseChangelog, entry_roundtrip, ih]

lemma lookupKey_optPlatField_ne (name : String) (r : Option PlatformRelease)
    (key : String) (h : ¬ name = key) :
    Json.lookupKey (optPlatField name r) key = none := by
  cases r <;> simp [optPlatField, Json.lookupKey, h]

lemma lookupKey_append (l1 l2 : List (String × Json)) (key : String) :
    Json.lookupKey (l1 ++ l2) key =
      match Json.lookupKey l1 key with
      | some v => some v
      | none => Json.lookupKey l2 key := by
  induction l1 with
  | nil => rfl
  | cons kv rest ih =>
    by_cases h : kv.1 = key
    · simp [Json.lookupKey, h]
    · simp [Json.lookupKey, h, ih]

lemma isNull_platRel_toJson (r : PlatformRelease) :
    Json.isNull r.toJson = false := by
  cases r
  rfl

lemma isNull_announcement_toJson (a : Announcement) :
    Json.isNull a.toJson = false := by
  cases a
  rfl

lemma isNull_ota_toJson (o : OTA) : Json.isNull o.toJson = false := by
  cases o
  rfl

lemma optPlatField_none (name : String) : optPlatField name none = [] := rfl

lemma ota_platform_omitted (o : OTA) (p : String) (hp : p ∈ PLATFORMS)
    (h : o.getPlatform p = none) : Json.getKey o.toJson p = none := by
  simp only [PLATFORMS, List.mem_cons, List.mem_singleton, List.not_mem_nil,
    or_false] at hp
  rcases hp with h1 | h1 | h1 | h1 | h1 <;> subst h1 <;>
    simp [OTA.getPlatform] at h <;>
    simp [OTA.toJson, Json.getKey, Json.lookupKey, lookupKey_append,
      lookupKey_optPlatField_ne, optPlatField_none, h]

lemma ota_fromJson_toJson (o : OTA) (h : o.changelog.length ≤ 10) :
    OTA.fromJson o.toJson = some o := by
  obtain ⟨content, changelog, android, ios, windows, macos, linux⟩ := o
  simp only [OTA.changelog] at h
  have h10 : ¬ (changelog.length > 10) := by omega
  cases android <;> cases ios <;> cases windows <;> cases macos <;> cases linux <;>
    simp [OTA.fromJson, OTA.toJson, optPlatField, Json.getKey, Json.lookupKey,
      Json.asStr, optField, parseChangelog_roundtrip, platRel_roundtrip,
      isNull_platRel_toJson, h10]

/-- C1: every manifest built from the empty manifest by a finite
sequence of valid release calls keeps the changelog invariant (at most
10 entries, at most one entry per distinct version, so a re-release of a
version replaces rather than duplicates its line), and when the final
call carried non-empty changelog text its entry sits first. -/
theorem publish_changelog_invariant (calls : List ReleaseCall)
    (hvalid : ∀ c ∈ calls, c.platform ∈ PLATFORMS) :
    changelogInv (runReleases ⟨none, none⟩ calls) ∧
    (∀ pre c, calls = pre ++ [c] → c.changelogText ≠ "" →
      ∃ o, (runReleases ⟨none, none⟩ calls).ota = some o ∧
        o.changelog.head? = some ⟨c.version, c.changelogText⟩) := by
  constructor
  · have main : ∀ (cs : List ReleaseCall) (m : LoveACEManifest),
        changelogInv m → changelogInv (runReleases m cs) := by
      intro cs
      induction cs with
      | nil => intro m hm; exact hm
      | cons c rest ih =>
        intro m hm
        exact ih _ (applyRelease_inv m c.platform c.version c.force c.url
          c.fileMd5 c.content c.changelogText hm)
    exact main calls ⟨none, none⟩ trivial
  · intro pre c hcalls ht
    subst hcalls
    have hfold : runReleases ⟨none, none⟩ (pre ++ [c]) =
        applyRelease (runReleases ⟨none, none⟩ pre) c.platform c.version
          c.force c.url c.fileMd5 c.content c.changelogText := by
      unfold runReleases
      rw [List.foldl_append, List.foldl_cons, List.foldl_nil]
    rw [hfold]
    obtain ⟨o, ho, hc⟩ := applyRelease_ota_changelog
      (runReleases ⟨none, none⟩ pre) c.platform c.version c.force c.url
      c.fileMd5 c.content c.changelogText
    exact ⟨o, ho, by rw [hc]; exact buildChangelogs_head _ _ _ ht⟩

/-- Witness for C1 on a two-call sequence re-releasing one version. -/
theorem publish_changelog_invariant_witness :
    changelogInv (runReleases ⟨none, none⟩
      [⟨"android", "1.0.0", false, "u", "m", "c", "Initial"⟩,
       ⟨"android", "1.0.0", false, "u", "m", "c", "Initial fix"⟩]) :=
  (publish_changelog_invariant
    [⟨"android", "1.0.0", false, "u", "m", "c", "Initial"⟩,
     ⟨"android", "1.0.0", false, "u", "m", "c", "Initial fix"⟩]
    (by decide)).1

/-- C4: releasing to platform P writes exactly the record built from the
call arguments for P, and leaves the record of every other platform Q,
present or absent, exactly as it was. -/
theorem release_platform_frame (m : LoveACEManifest)
    (p q version url fileMd5 content text : String) (force : Bool)
    (hp : p ∈ PLATFORMS) (hq : q ∈ PLATFORMS) (hne : q ≠ p) :
    (applyRelease m p version force url fileMd5 content text).platformRecord p
        = some ⟨version, force, url, fileMd5⟩ ∧
    (applyRelease m p version force url fileMd5 content text).platformRecord q
        = m.platformRecord q := by
  cases hmo : m.ota with
  | none =>
    simp only [applyRelease, LoveACEManifest.platformRecord, hmo]
    constructor
    · exact getPlatform_setPlatform_self _ p hp _
    · rw [getPlatform_setPlatform_ne _ p q hp hq hne, getPlatform_new]
  | some o =>
    simp only [applyRelease, LoveACEManifest.platformRecord, hmo]
    constructor
    · exact getPlatform_setPlatform_self _ p hp _
    · rw [getPlatform_setPlatform_ne _ p q hp hq hne, getPlatform_withMeta]

/-- Witness for C4: an android release leaves the ios record alone. -/
theorem release_platform_frame_witness :
    (applyRelease
        ⟨none, some ⟨"c", [], none, some ⟨"0.9", false, "u0", "m0"⟩, none, none, none⟩⟩
        "android" "1.0.0" true "u1" "m1" "" "").platformRecord "android"
      = some ⟨"1.0.0", true, "u1", "m1"⟩ ∧
    (applyRelease
        ⟨none, some ⟨"c", [], none, some ⟨"0.9", false, "u0", "m0"⟩, none, none, none⟩⟩
        "android" "1.0.0" true "u1" "m1" "" "").platformRecord "ios"
      = (⟨none, some ⟨"c", [], none, some ⟨"0.9", false, "u0", "m0"⟩, none, none,
          none⟩⟩ : LoveACEManifest).platformRecord "ios" :=
  release_platform_frame
    ⟨none, some ⟨"c", [], none, some ⟨"0.9", false, "u0", "m0"⟩, none, none, none⟩⟩
    "android" "ios" "1.0.0" "u1" "m1" "" "" true
    (by decide) (by decide) (by decide)

/-- C5: with an existing OTA, an empty sharedContent argument leaves the
shared content unchanged and a non-empty one replaces it; without an
OTA, the created record carries exactly the sharedContent argument. -/
theorem release_shared_content (m : LoveACEManifest)
    (p version url fileMd5 text : String) (force : Bool) (content : String) :
    (∀ o, m.ota = some o → content = "" →
      ((applyRelease m p version force url fileMd5 content text).ota.map
        (fun x => x.content)) = some o.content) ∧
    (content ≠ "" →
      ((applyRelease m p version force url fileMd5 content text).ota.map
        (fun x => x.content)) = some content) ∧
    (m.ota = none →
      ((applyRelease m p version force url fileMd5 content text).ota.map
        (fun x => x.content)) = some content) := by
  refine ⟨fun o ho hc => ?_, fun hc => ?_, fun ho => ?_⟩
  · unfold applyRelease
    rw [ho]
    simp [setPlatform_content, hc]
  · unfold applyRelease
    cases m.ota <;> simp [setPlatform_content, hc]
  · unfold applyRelease
    rw [ho]
    simp [setPlatform_content]

/-- Witness for C5 covering the preserve, replace and create cases. -/
theorem release_shared_content_witness :
    ((applyRelease ⟨none, some ⟨"old", [], none, none, none, none, none⟩⟩
        "android" "1.0.0" false "u" "m" "" "").ota.map (fun x => x.content))
      = some "old" ∧
    ((applyRelease ⟨none, some ⟨"old", [], none, none, none, none, none⟩⟩
        "android" "1.0.0" false "u" "m" "new" "").ota.map (fun x => x.content))
      = some "new" ∧
    ((applyRelease ⟨none, none⟩
        "android" "1.0.0" false "u" "m" "fresh" "").ota.map (fun x => x.content))
      = some "fresh" :=
  ⟨(release_shared_content ⟨none, some ⟨"old", [], none, none, none, none, none⟩⟩
      "android" "1.0.0" "u" "m" "" false "").1
    ⟨"old", [], none, none, none, none, none⟩ rfl rfl,
   (release_shared_content ⟨none, some ⟨"old", [], none, none, none, none, none⟩⟩
      "android" "1.0.0" "u" "m" "" false "new").2.1 (by decide),
   (release_shared_content ⟨none, none⟩
      "android" "1.0.0" "u" "m" "" false "fresh").2.2 rfl⟩

/-- C8: serializing a manifest to the persisted JSON shape and
validating it back yields an equal manifest, and absent optional fields
(announcement, ota, and each unreleased platform record) are omitted
from the serialized object entirely, not emitted as null or empty. -/
theorem manifest_roundtrip (m : LoveACEManifest)
    (h : ∀ o, m.ota = some o → o.changelog.length ≤ 10) :
    LoveACEManifest.fromJson m.toJson = some m ∧
    (m.announcement = none → Json.getKey m.toJson "announcement" = none) ∧
    (m.ota = none → Json.getKey m.toJson "ota" = none) ∧
    (∀ o, m.ota = some o → ∀ p ∈ PLATFORMS, o.getPlatform p = none →
      Json.getKey o.toJson p = none) := by
  obtain ⟨ann, ota⟩ := m
  refine ⟨?_, fun hann => ?_, fun hota => ?_,
    fun o ho p hp hpr => ota_platform_omitted o p hp hpr⟩
  · cases ann with
    | none =>
      cases hmo : ota with
      | none => rfl
      | some o =>
        have hlen : o.changelog.length ≤ 10 := h o hmo
        simp [LoveACEManifest.fromJson, LoveACEManifest.toJson, Json.getKey,
          Json.lookupKey, optField, isNull_ota_toJson,
          ota_fromJson_toJson o hlen]
    | some a =>
      cases hmo : ota with
      | none =>
        simp [LoveACEManifest.fromJson, LoveACEManifest.toJson, Json.getKey,
          Json.lookupKey, optField, isNull_announcement_toJson,
          announcement_roundtrip]
      | some o =>
        have hlen : o.changelog.length ≤ 10 := h o hmo
        simp [LoveACEManifest.fromJson, LoveACEManifest.toJson, Json.getKey,
          Json.lookupKey, optField, isNull_announcement_toJson,
          isNull_ota_toJson, announcement_roundtrip,
          ota_fromJson_toJson o hlen]
  · have h2 : ann = none := hann
    subst h2
    cases ota <;>
      simp [LoveACEManifest.toJson, Json.getKey, Json.lookupKey]
  · have h2 : ota = none := hota
    subst h2
    cases ann <;>
      simp [LoveACEManifest.toJson, Json.getKey, Json.lookupKey]

/-- Witness for C8 on a manifest with one android release. -/
theorem manifest_roundtrip_witness :
    LoveACEManifest.fromJson
        (LoveACEManifest.toJson
          ⟨none, some ⟨"c", [⟨"1.0.0", "Initial"⟩], some ⟨"1.0.0", false, "u", "m"⟩,
            none, none, none, none⟩⟩)
      = some ⟨none, some ⟨"c", [⟨"1.0.0", "Initial"⟩],
          some ⟨"1.0.0", false, "u", "m"⟩, none, none, none, none⟩⟩ :=
  (manifest_roundtrip
    ⟨none, some ⟨"c", [⟨"1.0.0", "Initial"⟩], some ⟨"1.0.0", false, "u", "m"⟩,
      none, none, none, none⟩⟩
    (fun o ho => by simp at ho; subst ho; decide)).1

/-- C9: clearAnnouncement is idempotent, and on a manifest whose
announcement is already absent it is a no-op, not an error. -/
theorem clearAnnouncement_idempotent (m : LoveACEManifest) :
    clearAnnouncement (clearAnnouncement m) = clearAnnouncement m ∧
    (m.announcement = none → clearAnnouncement m = m) := by
  constructor
  · rfl
  · intro h
    cases m
    simp_all [clearAnnouncement]

/-- Witness for C9 at the empty manifest. -/
theorem clearAnnouncement_idempotent_witness :
    clearAnnouncement ⟨none, none⟩ = ⟨none, none⟩ :=
  (clearAnnouncement_idempotent ⟨none, none⟩).2 rfl

/-- C10: the announcement half and the OTA half of the manifest never
interfere: announce and clear-announce leave the OTA unchanged, and the
release update leaves the announcement unchanged. -/
theorem announcement_ota_frame (m : LoveACEManifest) (t c : String)
    (confirm force : Bool) (p v u md sc text : String) :
    (setAnnouncement m t c confirm).ota = m.ota ∧
    (clearAnnouncement m).ota = m.ota ∧
    (applyRelease m p v force u md sc text).announcement = m.announcement :=
  ⟨rfl, rfl, rfl⟩

/-- C7: a failed storage read and a stored document that is not
well-formed JSON are both treated as an absent document: load_manifest
returns the empty manifest instead of surfacing an error. -/
theorem load_manifest_recovers :
    load_manifest .readFailed = some ⟨none, none⟩ ∧
    load_manifest .notJson = some ⟨none, none⟩ :=
  ⟨rfl, rfl⟩

/-- C2 counterexample: two distinct (title, content) pairs whose
concatenations coincide produce the same announcement digest, so the
digest does not change whenever either input changes. -/
theorem announcement_digest_collision :
    (Announcement.mk "ab" "c" false ≠ Announcement.mk "a" "bc" false) ∧
    Announcement.md5 ⟨"ab", "c", false⟩ = Announcement.md5 ⟨"a", "bc", false⟩ := by
  refine ⟨by decide, ?_⟩
  show md5Hex ("ab" ++ "c") = md5Hex ("a" ++ "bc")
  exact congrArg md5Hex (by decide)

/-- C2 amended: the announcement digest is deterministic and depends
exactly on the concatenation of title and content: any two inputs with
equal concatenation receive equal digests. -/
theorem announcement_digest_concat (a b : Announcement)
    (h : a.title ++ a.content = b.title ++ b.content) :
    Announcement.md5 a = Announcement.md5 b :=
  congrArg md5Hex h

/-- Witness for the amended C2 on a concrete colliding pair. -/
theorem announcement_digest_concat_witness :
    ("ab" ++ "c" = "a" ++ "bc") ∧
    Announcement.md5 ⟨"ab", "c", true⟩ = Announcement.md5 ⟨"a", "bc", true⟩ :=
  ⟨by decide,
   announcement_digest_concat ⟨"ab", "c", true⟩ ⟨"a", "bc", true⟩ (by decide)⟩

/-- C6 counterexample: on a valid invocation the release command reads
the manifest before it hashes the file and uploads the artifact, not
after, so the claimed order checksum, upload, read does not hold. -/
theorem release_steps_counterexample :
    releaseSteps "android" true =
      [.readManifest, .checksumFile, .uploadArtifact, .writeManifest] ∧
    releaseSteps "android" true ≠
      [.checksumFile, .uploadArtifact, .readManifest, .writeManifest] := by
  decide

/-- C6 amended: the release command validates the platform and the file
with no I/O steps at all (so no remote calls) and exits on failure;
otherwise it reads the manifest, computes the checksum, uploads the
artifact and finally writes the manifest, so the artifact upload always
precedes the manifest write. -/
theorem release_steps_order (p : String) (fe : Bool) :
    (releaseValidate p fe ≠ none → releaseSteps p fe = []) ∧
    (releaseValidate p fe = none →
      releaseSteps p fe =
        [.readManifest, .checksumFile, .uploadArtifact, .writeManifest]) := by
  unfold releaseValidate releaseSteps
  split_ifs <;> simp

/-- Witness for the amended C6 on an invalid and on a valid input. -/
theorem release_steps_order_witness :
    releaseSteps "web" true = [] ∧
    releaseSteps "android" true =
      [.readManifest, .checksumFile, .uploadArtifact, .writeManifest] :=
  ⟨(release_steps_order "web" true).1 (by decide),
   (release_steps_order "android" true).2 (by decide)⟩

/-- C3: set_force fails with invalidPlatform on an unknown platform,
with noOtaConfigured when no OTA exists, with platformNotReleased when
the platform has no record (each error exits before the write, leaving
the stored manifest unchanged), and on success rewrites only the
force_ota flag of that platform, keeping version, url and md5. -/
theorem setForce_spec (m : LoveACEManifest) (p : String) (f : Bool) :
    (p ∉ PLATFORMS → setForce m p f = .error .invalidPlatform) ∧
    (p ∈ PLATFORMS → m.ota = none → setForce m p f = .error .noOtaConfigured) ∧
    (∀ o, p ∈ PLATFORMS → m.ota = some o → o.getPlatform p = none →
      setForce m p f = .error .platformNotReleased) ∧
    (∀ o r, p ∈ PLATFORMS → m.ota = some o → o.getPlatform p = some r →
      setForce m p f =
        .ok { m with
              ota := some (o.setPlatform p
                (some ⟨r.version, f, r.url, r.md5⟩)) }) := by
  refine ⟨fun h => ?_, fun hp hm => ?_, fun o hp hm hr => ?_, fun o r hp hm hr => ?_⟩
  · simp [setForce, h]
  · simp [setForce, hp, hm]
  · simp [setForce, hp, hm, hr]
  · cases r
    simp [setForce, hp, hm, hr]

/-- Witness for C3 exercising all four outcomes on concrete manifests. -/
theorem setForce_spec_witness :
    setForce ⟨none, none⟩ "web" true = .error .invalidPlatform ∧
    setForce ⟨none, none⟩ "android" true = .error .noOtaConfigured ∧
    setForce ⟨none, some ⟨"", [], none, none, none, none, none⟩⟩ "android" true
      = .error .platformNotReleased ∧
    setForce
        ⟨none, some ⟨"", [], some ⟨"1.0.0", false, "u", "m"⟩, none, none, none, none⟩⟩
        "android" true
      = .ok ⟨none, some ⟨"", [], some ⟨"1.0.0", true, "u", "m"⟩, none, none, none, none⟩⟩ :=
  ⟨(setForce_spec ⟨none, none⟩ "web" true).1 (by decide),
   (setForce_spec ⟨none, none⟩ "android" true).2.1 (by decide) rfl,
   (setForce_spec ⟨none, some ⟨"", [], none, none, none, none, none⟩⟩
       "android" true).2.2.1 ⟨"", [], none, none, none, none, none⟩
     (by decide) rfl rfl,
   (setForce_spec
       ⟨none, some ⟨"", [], some ⟨"1.0.0", false, "u", "m"⟩, none, none, none, none⟩⟩
       "android" true).2.2.2
     ⟨"", [], some ⟨"1.0.0", false, "u", "m"⟩, none, none, none, none⟩
     ⟨"1.0.0", false, "u", "m"⟩ (by decide) rfl rfl⟩

end LoveACE
